import Mathlib

/-!
Verification of the core of the `ebba-irc-bot` repository against its
natural-language specification.

The Python sources under `src/core/` are shallowly embedded below:
strings are modelled as `List Char`, `time.monotonic()` readings as `ℚ`,
fallible code as `Option`, and side effects (config-file writes, handler
dispatch, IRC replies) as explicit event lists.  Field and function names
follow the source where Lean's grammar allows it; the IRC message field
`prefix` is renamed to `source` because `prefix` is a Lean keyword.
-/

namespace Ebba

/-- Python strings, modelled as character lists. -/
abbrev Str := List Char

/-- The ASCII whitespace characters recognised by Python's `str.strip()` /
`str.split()` (the sources only ever meet ASCII here). -/
def isSpace (c : Char) : Bool :=
  c = ' ' || c = '\t' || c = '\n' || c = '\r' || c = Char.ofNat 11 || c = Char.ofNat 12

/-- Python `str.lower()` (ASCII case fold suffices for the identities involved). -/
def pyLower (s : Str) : Str := s.map Char.toLower

/-- Python `str.strip(chars)`: remove leading and trailing characters drawn
from `cs`. -/
def pyStripChars (cs : List Char) (l : Str) : Str :=
  ((l.dropWhile (fun c => cs.contains c)).reverse.dropWhile (fun c => cs.contains c)).reverse

/-- Python `str.strip()` with no argument: remove leading and trailing
whitespace. -/
def pyStrip (l : Str) : Str :=
  ((l.dropWhile isSpace).reverse.dropWhile isSpace).reverse

/-- Python `s.split(sep, 1)` for a non-empty separator: split at the first
occurrence of `sep`.  `none` models the one-element result (no occurrence);
`some (a, b)` the two-element result. -/
def splitOnSeq (sep : Str) : Str → Option (Str × Str)
  | [] => none
  | c :: rest =>
    if sep.isPrefixOf (c :: rest) then some ([], (c :: rest).drop sep.length)
    else
      match splitOnSeq sep rest with
      | none => none
      | some (a, b) => some (c :: a, b)

/-- Helper for `pySplit`: accumulate the current word (reversed). -/
def splitWsAux : Str → Str → List Str
  | [], acc => if acc.isEmpty then [] else [acc.reverse]
  | c :: rest, acc =>
    if isSpace c then
      if acc.isEmpty then splitWsAux rest [] else acc.reverse :: splitWsAux rest []
    else splitWsAux rest (c :: acc)

/-- Python `str.split()` with no argument: split on whitespace runs,
dropping empty fields. -/
def pySplit (l : Str) : List Str := splitWsAux l []

/-- `core.utils.IRCMessage`.  The Python field `prefix` is called `source`
here (`prefix` is a Lean keyword). -/
structure IRCMessage where
  source : Option Str
  command : Str
  params : List Str
  trailing : Option Str
deriving DecidableEq

/-- Shallow embedding of `parse_irc_message` (src/core/utils.py:33-51).
`none` models the uncaught `ValueError` raised by the unpacking
`prefix, rest = rest[1:].split(" ", 1)` when a `:`-prefixed line contains
no space. -/
def parse_irc_message (line : Str) : Option IRCMessage :=
  let rest0 := pyStripChars ['\r', '\n'] line
  let step1 : Option (Option Str × Str) :=
    if rest0.head? = some ':' then
      match splitOnSeq [' '] (rest0.drop 1) with
      | none => none
      | some (p, r) => some (some p, r)
    else some (none, rest0)
  match step1 with
  | none => none
  | some (pfx, rest1) =>
    let rt : Str × Option Str :=
      match splitOnSeq [' ', ':'] rest1 with
      | none => (rest1, none)
      | some (a, b) => (a, some b)
    let params0 := if rt.1.isEmpty then [] else pySplit rt.1
    match params0 with
    | [] => some ⟨pfx, [], [], rt.2⟩
    | cmd :: ps => some ⟨pfx, cmd, ps, rt.2⟩

/-- `_reader_loop` body for one decoded raw line (src/core/irc_client.py:189-201):
strip CR/LF, skip empty lines, otherwise parse.  There is no try/except
around `parse_irc_message`, so a parse error escapes the loop. -/
inductive ReaderOutcome
  | skipEmpty
  | routed (msg : IRCMessage)
  | raisedValueError
deriving DecidableEq

def reader_loop_step (raw : Str) : ReaderOutcome :=
  let line := pyStripChars ['\r', '\n'] raw
  if line.isEmpty then .skipEmpty
  else
    match parse_irc_message line with
    | some m => .routed m
    | none => .raisedValueError

/-! ### `AsyncRateLimiter` (src/core/utils.py:54-82)

`acquire()` runs entirely under the instance lock (the `asyncio.sleep` is
inside `async with self._lock`), so a run is a sequence of acquire
operations.  Clock readings are rationals; `now` models the
`time.monotonic()` read at entry (line 66) and `now2` the re-read after the
conditional sleep (line 78; on the fast path it is unused). -/

structure RLStep where
  now : ℚ
  now2 : ℚ
deriving DecidableEq

/-- The pruning loop `while self._events and now - self._events[0] > self.per_seconds:
self._events.popleft()` (strict comparison, as in the source). -/
def rlPrune (W now : ℚ) : List ℚ → List ℚ
  | [] => []
  | e :: rest => if now - e > W then rlPrune W now rest else e :: rest

/-- `wait_time = self.per_seconds - (now - self._events[0])` (line 74). -/
def rlWaitTime (W : ℚ) (evs : List ℚ) (now : ℚ) : ℚ := W - (now - evs.headD 0)

/-- One `acquire()` call: returns the new deque and the completion time. -/
def rlAcquire (N : ℕ) (W : ℚ) (evs : List ℚ) (step : RLStep) : List ℚ × ℚ :=
  let e1 := rlPrune W step.now evs
  if e1.length < N then (e1 ++ [step.now], step.now)
  else
    let e2 := rlPrune W step.now2 e1
    (e2 ++ [step.now2], step.now2)

/-- Timing side conditions that any real monotonic clock satisfies for one
`acquire()`: the clock never goes backwards, and when the code sleeps for a
positive `wait_time` the re-read clock has advanced at least that much. -/
def rlStepValid (N : ℕ) (W : ℚ) (evs : List ℚ) (tprev : ℚ) (step : RLStep) : Prop :=
  tprev ≤ step.now ∧ step.now ≤ step.now2 ∧
    (¬ (rlPrune W step.now evs).length < N →
      0 < rlWaitTime W (rlPrune W step.now evs) step.now →
      step.now + rlWaitTime W (rlPrune W step.now evs) step.now ≤ step.now2)

/-- Run a sequence of `acquire()` calls, collecting completion times. -/
def rlRun (N : ℕ) (W : ℚ) (steps : List RLStep) : List ℚ × List ℚ :=
  steps.foldl
    (fun st step =>
      let r := rlAcquire N W st.1 step
      (r.1, st.2 ++ [r.2]))
    ([], [])

/-- Number of completions falling in the closed window `[a, a + W]`. -/
def completionsInWindow (W a : ℚ) (times : List ℚ) : ℕ :=
  times.countP (fun t => decide (a ≤ t ∧ t ≤ a + W))

/-! ### Send queue (src/core/irc_client.py:92,154-176,203-209) -/

/-- `asyncio.Queue`: `maxsize = 0` means unbounded (asyncio treats
`maxsize <= 0` as "infinite"). -/
structure AsyncQueue where
  maxsize : ℕ
  items : List ℕ
deriving DecidableEq

/-- `asyncio.Queue.full()` semantics used by `put_nowait`. -/
def queue_full (q : AsyncQueue) : Bool := 0 < q.maxsize && q.maxsize ≤ q.items.length

/-- `put_nowait`: `none` models the raised `asyncio.QueueFull`. -/
def put_nowait (q : AsyncQueue) (m : ℕ) : Option AsyncQueue :=
  if queue_full q then none else some { q with items := q.items ++ [m] }

/-- `IRCClient.__init__` line 92: `asyncio.Queue(maxsize=100)`. -/
def init_send_queue : AsyncQueue := ⟨100, []⟩

/-- `IRCClient._cleanup_connection` line 175: `self._send_queue = asyncio.Queue()`
— constructed with no `maxsize`, hence unbounded. -/
def cleanup_send_queue : AsyncQueue := ⟨0, []⟩

/-- `send_raw` (lines 203-209): try `put_nowait`; on `QueueFull` drop the
message (second component `true` means the line was dropped with a warning). -/
def send_raw (q : AsyncQueue) (m : ℕ) : AsyncQueue × Bool :=
  match put_nowait q m with
  | some q' => (q', false)
  | none => (q, true)

/-- Iterate `send_raw`; returns the final queue and how many lines were dropped. -/
def send_many (q : AsyncQueue) (ms : List ℕ) : AsyncQueue × ℕ :=
  ms.foldl
    (fun st m =>
      let r := send_raw st.1 m
      (r.1, st.2 + if r.2 then 1 else 0))
    (q, 0)

/-! ### Reconnect backoff (`IRCClient.start`, src/core/irc_client.py:100-116) -/

/-- `backoff = max(self.reconnect_delay, 1)` (lines 102 and 106). -/
def backoff_reset (d : ℤ) : ℤ := max d 1

/-- `backoff = min(backoff * 2, self.max_backoff)` (line 116). -/
def backoff_next (M b : ℤ) : ℤ := min (b * 2) M

/-- How one iteration of the `start()` loop ends.  `start()` itself only
distinguishes "`_connect_once()` returned normally" from "`_connect_once()`
raised", but whether a connection was successfully established is a separate
fact, so the raising case is split in two:

* `dialFail` — `_connect_once` raised before a session was established
  (dial, TLS, or registration error): the `except Exception` branch runs.
* `sessionError` — the connection succeeded (dial + registration, session
  running) but later ended with an exception (e.g. `ConnectionResetError`
  inside `readline`), which `await self._reader_task` (line 147) re-raises
  out of `_connect_once`: the very same `except Exception` branch runs, and
  the reset at line 106 is skipped.
* `gracefulEnd` — the reader ended by clean EOF (or stop), `_connect_once`
  returned normally, and line 106 resets the backoff; no sleep. -/
inductive AttemptOutcome
  | dialFail
  | sessionError
  | gracefulEnd
deriving DecidableEq

/-- One iteration of the `start()` loop (lines 103-116) acting on the
`backoff` local and recording each `asyncio.sleep(backoff)` duration:
a raising iteration sleeps the current backoff and then doubles it
(capped); a normal return resets the backoff and sleeps nothing. -/
def backoff_step (d M : ℤ) (st : ℤ × List ℤ) : AttemptOutcome → ℤ × List ℤ
  | .gracefulEnd => (backoff_reset d, st.2)
  | .dialFail => (backoff_next M st.1, st.2 ++ [st.1])
  | .sessionError => (backoff_next M st.1, st.2 ++ [st.1])

/-- Run the `start()` loop over a list of attempt outcomes; returns the
current `backoff` value and the list of wait durations, in order. -/
def backoff_run (d M : ℤ) (outcomes : List AttemptOutcome) : ℤ × List ℤ :=
  outcomes.foldl (backoff_step d M) (backoff_reset d, [])

/-! ### Owner records and authentication (src/core/irc_client.py:23-57,579-699) -/

/-- `OwnerRecord` (dataclass, lines 23-27).  The Python `hosts` set is
modelled as a list; only membership and insertion of absent elements are
used, for which the two agree. -/
structure OwnerRecord where
  nick : Str
  password : Option Str
  hosts : List Str
deriving DecidableEq

/-- `OwnerRecord.has_host` (lines 29-47): case-insensitive membership with
the `~`-on-ident equivalence. -/
def has_host (r : OwnerRecord) (ident_host : Str) : Bool :=
  let candidate := pyLower ident_host
  if r.hosts.any (fun e => pyLower e == candidate) then true
  else
    match splitOnSeq ['@'] candidate with
    | none => false
    | some (identPart, hostPart) =>
      if identPart.head? = some '~' then
        r.hosts.any (fun e => pyLower e == identPart.drop 1 ++ ('@' :: hostPart))
      else
        r.hosts.any (fun e => pyLower e == ('~' :: identPart) ++ ('@' :: hostPart))

/-- `OwnerRecord.add_host` (lines 49-56); returns whether a host was added
together with the updated record. -/
def add_host (r : OwnerRecord) (ident_host : Str) : Bool × OwnerRecord :=
  let ih := pyStrip ident_host
  if ih.isEmpty then (false, r)
  else if has_host r ih then (false, r)
  else (true, { r with hosts := r.hosts ++ [ih] })

/-- `self._owner_records`: a dict keyed by lowercased nick, modelled as an
association list (keys are unique in the source, enforced at config load). -/
abbrev OwnerRecords := List OwnerRecord

/-- `self._owner_records.get(key)`. -/
def lookup_record (records : OwnerRecords) (key : Str) : Option OwnerRecord :=
  records.find? (fun r => pyLower r.nick == key)

/-- In-place mutation of the record stored under `key` (Python mutates the
dict's value object): replace the first record whose key matches. -/
def update_record : OwnerRecords → Str → OwnerRecord → OwnerRecords
  | [], _, _ => []
  | r :: rest, key, r' =>
    if pyLower r.nick == key then r' :: rest else r :: update_record rest key r'

/-- `IRCClient._extract_owner_identity` (lines 608-618). -/
def extract_owner_identity (pfx : Str) : Option Str × Option Str :=
  match splitOnSeq ['!'] pfx with
  | none => (if pfx.isEmpty then none else some pfx, none)
  | some (nick, rest) =>
    match splitOnSeq ['@'] rest with
    | none => (some nick, none)
    | some (ident0, host0) =>
      let ident := pyStrip ident0
      let host := pyStrip host0
      (some nick,
        if ident.isEmpty || host.isEmpty then none else some (ident ++ ('@' :: host)))

/-- Python string comparison, for `sorted(...)` on host sets. -/
def strLt : Str → Str → Bool
  | [], [] => false
  | [], _ :: _ => true
  | _ :: _, [] => false
  | a :: as, b :: bs => if a < b then true else if a = b then strLt as bs else false

def insertStr (x : Str) : List Str → List Str
  | [] => [x]
  | y :: ys => if strLt y x then y :: insertStr x ys else x :: y :: ys

/-- `sorted(hosts)` (insertion sort; order agrees with Python's for sets of
distinct strings). -/
def sortStrs : List Str → List Str
  | [] => []
  | x :: xs => insertStr x (sortStrs xs)

/-- One serialised `owner_nicks` entry (lines 584-591): password omitted when
falsy, hosts sorted (an empty host set is omitted, i.e. empty here). -/
structure OwnerEntry where
  nick : Str
  password : Option Str
  hosts : List Str
deriving DecidableEq

def truthyOpt (s : Option Str) : Bool :=
  match s with
  | none => false
  | some l => !l.isEmpty

def serialize_owners (records : OwnerRecords) : List OwnerEntry :=
  records.map (fun r =>
    { nick := r.nick
      password := if truthyOpt r.password then r.password else none
      hosts := sortStrs r.hosts })

/-- Config-file side effects of `_persist_owner_records` (lines 579-606). -/
inductive PersistEv
  | ownersWrite (entries : List OwnerEntry)
  | ownersWriteFailed
deriving DecidableEq

/-- `IRCClient._persist_owner_records`: `configPath = false` models
`get_config_path()` returning `None` (early return, line 581-582);
`writeOk = false` models `atomic_write_yaml` raising — the exception is
caught inside and only a warning is logged (lines 601-606). -/
def persist_owner_records (configPath writeOk : Bool) (records : OwnerRecords) :
    List PersistEv :=
  if !configPath then []
  else if writeOk then [.ownersWrite (serialize_owners records)]
  else [.ownersWriteFailed]

/-- `IRCClient._authenticate_owner` (lines 620-635): result, updated records,
and config-file events, in program order. -/
def authenticate_owner (configPath writeOk : Bool) (records : OwnerRecords)
    (pfx pw : Str) : Bool × OwnerRecords × List PersistEv :=
  match extract_owner_identity pfx with
  | (some nick, some ih) =>
    if nick.isEmpty || ih.isEmpty then (false, records, [])
    else
      match lookup_record records (pyLower nick) with
      | none => (false, records, [])
      | some r =>
        match r.password with
        | none => (false, records, [])
        | some rpw =>
          if pw ≠ rpw then (false, records, [])
          else
            let ar := add_host r ih
            let records' := update_record records (pyLower nick) ar.2
            if ar.1 then (true, records', persist_owner_records configPath writeOk records')
            else (true, records', [])
  | _ => (false, records, [])

/-- `IRCClient._has_owner_access` (lines 637-662). -/
def has_owner_access (records : OwnerRecords) (pfxOpt : Option Str) : Bool :=
  match pfxOpt with
  | none => false
  | some pfx =>
    if pfx.isEmpty then false
    else
      match extract_owner_identity pfx with
      | (some nick, some ih) =>
        if nick.isEmpty || ih.isEmpty then false
        else
          match lookup_record records (pyLower nick) with
          | none => false
          | some r => if r.hosts.isEmpty then false else has_host r ih
      | _ => false

/-- `" ".join(args)`. -/
def joinSpaces : List Str → Str
  | [] => []
  | [x] => x
  | x :: y :: rest => x ++ (' ' :: joinSpaces (y :: rest))

/-- The distinct `privmsg` replies of the `auth` builtin branch
(src/core/irc_client.py:678-699).  `failed` is the single constant string
`"Authentication failed."` used whenever `_authenticate_owner` returns
`False`, whatever the cause. -/
inductive AuthReply
  | mustBePrivate
  | usage
  | missingPrefix
  | success (ident_host : Option Str)
  | failed
deriving DecidableEq

/-- The `auth` branch of `_handle_builtin_commands` (lines 678-699), given the
already-split `args` of the command. -/
def auth_command (configPath writeOk : Bool) (records : OwnerRecords)
    (pfxOpt : Option Str) (args : List Str) (is_private : Bool) :
    AuthReply × OwnerRecords × List PersistEv :=
  if !is_private then (.mustBePrivate, records, [])
  else if args.isEmpty then (.usage, records, [])
  else
    let password := joinSpaces args
    match pfxOpt with
    | none => (.missingPrefix, records, [])
    | some pfx =>
      if pfx.isEmpty then (.missingPrefix, records, [])
      else
        match authenticate_owner configPath writeOk records pfx password with
        | (true, records', evs) => (.success (extract_owner_identity pfx).2, records', evs)
        | (false, records', evs) => (.failed, records', evs)

/-- Program-order event trace of the `auth` branch: the persistence events of
`_authenticate_owner` happen before the reply `privmsg` is sent. -/
inductive AuthTraceEv
  | persist (e : PersistEv)
  | reply (r : AuthReply)
deriving DecidableEq

def auth_command_trace (configPath writeOk : Bool) (records : OwnerRecords)
    (pfxOpt : Option Str) (args : List Str) (is_private : Bool) :
    OwnerRecords × List AuthTraceEv :=
  match auth_command configPath writeOk records pfxOpt args is_private with
  | (rep, records', evs) => (records', evs.map .persist ++ [.reply rep])

/-! ### Channel-list persistence (`IRCClient._persist_channels`,
src/core/irc_client.py:476-521) -/

/-- An item of a YAML list: a string, or anything else (the source filters
with `isinstance(item, str)`). -/
inductive YItem
  | str (s : Str)
  | other
deriving DecidableEq

/-- The normalisation loop of `_persist_channels` (lines 481-493): keep
string items, strip, drop empties, dedupe case-insensitively keeping the
first occurrence, preserving case and order.  `seen` is the set of lowered
names already kept. -/
def normalize_aux (seen : List Str) : List YItem → List Str
  | [] => []
  | YItem.other :: rest => normalize_aux seen rest
  | YItem.str c :: rest =>
    let name := pyStrip c
    if name.isEmpty then normalize_aux seen rest
    else if seen.contains (pyLower name) then normalize_aux seen rest
    else name :: normalize_aux (pyLower name :: seen) rest

def normalize_channels (chans : List YItem) : List Str := normalize_aux [] chans

/-- `existing_channels` (lines 502-508): the string items of the on-disk
`channels` section, stripped. -/
def existing_of (disk : List YItem) : List Str :=
  disk.filterMap (fun i =>
    match i with
    | YItem.str v => some (pyStrip v)
    | YItem.other => none)

/-- Result of one `_persist_channels` call (assuming the atomic write, when
attempted, succeeds): whether a write happened, the resulting on-disk
`channels` section, and the resulting in-memory `self.channels` (which the
source always replaces by the normalised list, line 495). -/
structure ChannelsPersist where
  wrote : Bool
  disk : List YItem
  mem : List Str
deriving DecidableEq

def persist_channels (disk : List YItem) (selfCh : List YItem) : ChannelsPersist :=
  let normalized := normalize_channels selfCh
  if existing_of disk = normalized then ⟨false, disk, normalized⟩
  else ⟨true, normalized.map YItem.str, normalized⟩

/-- Reloading the channel list: `IRCClient.__init__` takes
`list(config.get("channels", []))` verbatim from the on-disk document. -/
def reload_channels (disk : List YItem) : List YItem := disk

/-! ### Event router (`IRCClient._handle_nick/_handle_kick/_handle_quit/
_handle_privmsg`, src/core/irc_client.py:336-474) -/

/-- The runtime state the routed events touch. -/
structure ClientState where
  nickname : Str
  channels : List Str
  ignored : List Str
deriving DecidableEq

/-- `user.split("!", 1)[0]`. -/
def nickOf (user : Str) : Str :=
  match splitOnSeq ['!'] user with
  | none => user
  | some (a, _) => a

/-- Calls the router makes into `_handle_builtin_commands` and the plugin
manager, with their argument values, in program order. -/
inductive RouterCall
  | builtinCommands (nick user channel text : Str) (is_private : Bool)
  | dispatchMessage (user channel text : Str)
  | dispatchNick (user newNick : Str)
  | dispatchKick (channel target kicker reason : Str)
  | dispatchQuit (user reason : Str)
deriving DecidableEq

/-- `IRCClient._forget_channel` (lines 452-474), in-memory part: strip, and
if non-empty remove all case-insensitive matches from the channel list. -/
def forget_channel_mem (channels : List Str) (channel : Str) : List Str :=
  let c := pyStrip channel
  if c.isEmpty then channels
  else channels.filter (fun e => decide (pyLower e ≠ pyLower c))

/-- The `new_nick` computation of `_handle_nick` (lines 393-397): the
trailing if truthy, else the first parameter, else empty. -/
def nick_new_nick (msg : IRCMessage) : Str :=
  match msg.trailing with
  | some t => if t.isEmpty then msg.params.headD [] else t
  | none => msg.params.headD []

/-- `IRCClient._handle_nick` (lines 388-407). -/
def handle_nick (st : ClientState) (msg : IRCMessage) : ClientState × List RouterCall :=
  match msg.source with
  | none => (st, [])
  | some pfx =>
    let new_nick := nick_new_nick msg
    if new_nick.isEmpty then (st, [])
    else
      let old_nick := nickOf pfx
      let st' :=
        if pyLower old_nick == pyLower st.nickname then { st with nickname := new_nick }
        else st
      (st', [.dispatchNick pfx new_nick])

/-- `IRCClient._handle_kick` (lines 409-424). -/
def handle_kick (st : ClientState) (msg : IRCMessage) : ClientState × List RouterCall :=
  match msg.source with
  | none => (st, [])
  | some pfx =>
    match msg.params with
    | channel :: target :: _ =>
      let reason := msg.trailing.getD []
      let st' :=
        if pyLower target == pyLower st.nickname then
          { st with channels := forget_channel_mem st.channels channel }
        else st
      (st', [.dispatchKick channel target pfx reason])
    | _ => (st, [])

/-- `IRCClient._handle_quit` (lines 426-432). -/
def handle_quit (st : ClientState) (msg : IRCMessage) : ClientState × List RouterCall :=
  match msg.source with
  | none => (st, [])
  | some pfx => (st, [.dispatchQuit pfx (msg.trailing.getD [])])

/-- `IRCClient._handle_privmsg` (lines 336-349).  When the guard passes the
source makes exactly two calls: `_handle_builtin_commands(...)` and
`plugin_manager.dispatch_message(...)`; both are recorded as events (their
bodies are modelled separately). -/
def handle_privmsg (st : ClientState) (msg : IRCMessage) : ClientState × List RouterCall :=
  match msg.source, msg.trailing with
  | some user, some text =>
    let target := msg.params.headD []
    let nick := nickOf user
    let is_private := pyLower target == pyLower st.nickname
    let channel := if is_private then nick else target
    if st.ignored.contains (pyLower nick) then (st, [])
    else
      (st, [.builtinCommands nick user channel text is_private,
            .dispatchMessage user channel text])
  | _, _ => (st, [])

/-! ### Plugin-manager broadcast (src/core/plugin_manager.py:144-181 and the
`dispatch_nick` / `dispatch_kick` / `dispatch_quit` methods, which
`irc_client.py` calls and `src/tests/test_new_events.py` exercises but which
are absent from `src/core/plugin_manager.py`). -/

/-- A loaded handler module: its name and which event handlers it defines as
callables. -/
structure HandlerModule where
  name : Str
  hasOnNick : Bool
  hasOnKick : Bool
  hasOnQuit : Bool
deriving DecidableEq

/-- A handler task spawned by a dispatch. -/
inductive SpawnedTask
  | onNick (module user newNick : Str)
  | onKick (module channel target kicker reason : Str)
  | onQuit (module user reason : Str)
deriving DecidableEq

/-- Modelled from the spec: `PluginManager.dispatch_nick` is called by
`IRCClient._handle_nick` and exercised by `src/tests/test_new_events.py`, but
its definition is missing from `src/core/plugin_manager.py`.  Per the spec
("`NICK` → … broadcast to registered handlers") and by symmetry with
`dispatch_join`/`dispatch_part` (lines 159-181), it spawns one handler task
per loaded module whose `on_nick` attribute is callable, in load order. -/
def dispatch_nick (mods : List HandlerModule) (user newNick : Str) : List SpawnedTask :=
  (mods.filter (fun m => m.hasOnNick)).map (fun m => .onNick m.name user newNick)

/-- Modelled from the spec: `PluginManager.dispatch_kick` is missing from
`src/core/plugin_manager.py` (see `dispatch_nick` above); one task per loaded
module with a callable `on_kick`. -/
def dispatch_kick (mods : List HandlerModule) (channel target kicker reason : Str) :
    List SpawnedTask :=
  (mods.filter (fun m => m.hasOnKick)).map (fun m => .onKick m.name channel target kicker reason)

/-- Modelled from the spec: `PluginManager.dispatch_quit` is missing from
`src/core/plugin_manager.py` (see `dispatch_nick` above); one task per loaded
module with a callable `on_quit`. -/
def dispatch_quit (mods : List HandlerModule) (user reason : Str) : List SpawnedTask :=
  (mods.filter (fun m => m.hasOnQuit)).map (fun m => .onQuit m.name user reason)

/-- Interpret the router's dispatch calls against the loaded modules. -/
def run_dispatch (mods : List HandlerModule) : RouterCall → List SpawnedTask
  | .dispatchNick u n => dispatch_nick mods u n
  | .dispatchKick c t k r => dispatch_kick mods c t k r
  | .dispatchQuit u r => dispatch_quit mods u r
  | _ => []

/-- All tasks spawned by routing one message's calls. -/
def spawned_tasks (mods : List HandlerModule) (calls : List RouterCall) : List SpawnedTask :=
  calls.flatMap (run_dispatch mods)

/-! ## Supporting lemmas -/

theorem pyStrip_eq_rdrop (l : Str) :
    pyStrip l = List.rdropWhile isSpace (List.dropWhile isSpace l) := rfl

theorem pyStrip_eq_self (l : Str)
    (h1 : ∀ hl : 0 < l.length, ¬ isSpace (l.get ⟨0, hl⟩))
    (h2 : ∀ hl : l ≠ [], ¬ isSpace (l.getLast hl)) :
    pyStrip l = l := by
  rw [pyStrip_eq_rdrop, List.dropWhile_eq_self_iff.mpr h1, List.rdropWhile_eq_self_iff.mpr h2]

theorem pyStrip_head_not (l : Str) (h : 0 < (pyStrip l).length) :
    ¬ isSpace ((pyStrip l).get ⟨0, h⟩) := by
  have hpre : pyStrip l <+: List.dropWhile isSpace l := by
    rw [pyStrip_eq_rdrop]
    exact List.rdropWhile_prefix _ _
  have hlen : 0 < (List.dropWhile isSpace l).length :=
    lt_of_lt_of_le h (List.IsPrefix.length_le hpre)
  have hget : (pyStrip l).get ⟨0, h⟩ = (List.dropWhile isSpace l).get ⟨0, hlen⟩ := by
    simpa using hpre.getElem h
  rw [hget]
  exact List.dropWhile_get_zero_not isSpace l hlen

theorem pyStrip_last_not (l : Str) (h : pyStrip l ≠ []) :
    ¬ isSpace ((pyStrip l).getLast h) :=
  List.rdropWhile_last_not isSpace (List.dropWhile isSpace l) h

theorem pyStrip_idem (l : Str) : pyStrip (pyStrip l) = pyStrip l :=
  pyStrip_eq_self (pyStrip l) (pyStrip_head_not l) (pyStrip_last_not l)

theorem pyStrip_ident_host (i0 h0 : Str) (hi : pyStrip i0 ≠ []) (hh : pyStrip h0 ≠ []) :
    pyStrip (pyStrip i0 ++ ('@' :: pyStrip h0)) = pyStrip i0 ++ ('@' :: pyStrip h0) := by
  apply pyStrip_eq_self
  · intro hl
    have hlen0 : 0 < (pyStrip i0).length := List.length_pos.mpr hi
    have hg : (pyStrip i0 ++ ('@' :: pyStrip h0)).get ⟨0, hl⟩ = (pyStrip i0).get ⟨0, hlen0⟩ := by
      simp [List.get_eq_getElem, List.getElem_append_left hlen0]
    rw [hg]
    exact pyStrip_head_not i0 hlen0
  · intro hnil
    have hne : ('@' :: pyStrip h0) ≠ [] := by simp
    have hg1 : (pyStrip i0 ++ ('@' :: pyStrip h0)).getLast hnil
        = ('@' :: pyStrip h0).getLast hne := List.getLast_append' _ _ hne
    have hg2 : ('@' :: pyStrip h0).getLast hne = (pyStrip h0).getLast hh :=
      List.getLast_cons hh
    rw [hg1, hg2]
    exact pyStrip_last_not h0 hh

/-- Any `ident@host` produced by `_extract_owner_identity` is non-empty and
already stripped. -/
theorem extract_ident_host_stripped (pfx : Str) (a : Option Str) (ih : Str)
    (h : extract_owner_identity pfx = (a, some ih)) :
    ih ≠ [] ∧ pyStrip ih = ih := by
  unfold extract_owner_identity at h
  cases h1 : splitOnSeq ['!'] pfx with
  | none => rw [h1] at h; simp at h
  | some nr =>
    obtain ⟨n, rest⟩ := nr
    simp only [h1] at h
    cases h2 : splitOnSeq ['@'] rest with
    | none => simp only [h2] at h; simp at h
    | some ihp =>
      obtain ⟨i0, h0⟩ := ihp
      simp only [h2] at h
      simp only [Prod.mk.injEq] at h
      by_cases hcond : ((pyStrip i0).isEmpty || (pyStrip h0).isEmpty) = true
      · rw [if_pos hcond] at h
        exact absurd h.2 (by simp)
      · rw [if_neg hcond] at h
        simp only [Bool.or_eq_true, List.isEmpty_iff, not_or] at hcond
        have hih : ih = pyStrip i0 ++ ('@' :: pyStrip h0) := by
          have := h.2
          simp at this
          exact this.symm
        subst hih
        refine ⟨by simp, pyStrip_ident_host i0 h0 hcond.1 hcond.2⟩

theorem update_record_self (records : OwnerRecords) (key : Str) (r : OwnerRecord)
    (h : lookup_record records key = some r) :
    update_record records key r = records := by
  induction records with
  | nil => rfl
  | cons a rest ih =>
    by_cases hak : (pyLower a.nick == key) = true
    · have ha : a = r := by
        simpa [lookup_record, List.find?_cons, hak] using h
      subst ha
      simp [update_record, hak]
    · have h' : lookup_record rest key = some r := by
        simpa [lookup_record, List.find?_cons, hak] using h
      simp [update_record, hak, ih h']

theorem lookup_update_record (records : OwnerRecords) (key : Str) (r r' : OwnerRecord)
    (h : lookup_record records key = some r) (hk : (pyLower r'.nick == key) = true) :
    lookup_record (update_record records key r') key = some r' := by
  induction records with
  | nil => simp [lookup_record] at h
  | cons a rest ih =>
    by_cases hak : (pyLower a.nick == key) = true
    · simp [update_record, hak, lookup_record, List.find?_cons, hk]
    · have h' : lookup_record rest key = some r := by
        simpa [lookup_record, List.find?_cons, hak] using h
      simpa [update_record, hak, lookup_record, List.find?_cons] using ih h'

theorem has_host_append_self (r : OwnerRecord) (ih : Str) :
    has_host ⟨r.nick, r.password, r.hosts ++ [ih]⟩ ih = true := by
  have hany : ((r.hosts ++ [ih]).any (fun e => pyLower e == pyLower ih)) = true := by
    rw [List.any_eq_true]
    exact ⟨ih, by simp, by simp⟩
  simp [has_host, hany]

/-! ## Claim theorems -/

/-- C10: re-authenticating with the correct password from an `ident@host` the
owner record already trusts (directly, case-insensitively, or via the `~`
ident equivalence — exactly `has_host`) returns success, leaves the record
set unchanged, and performs no config-file write. -/
theorem reauth_trusted_host_is_noop :
    ∀ (cp w : Bool) (records : OwnerRecords) (pfx pw nick ih : Str) (r : OwnerRecord),
      extract_owner_identity pfx = (some nick, some ih) →
      nick ≠ [] →
      lookup_record records (pyLower nick) = some r →
      r.password = some pw →
      has_host r ih = true →
      authenticate_owner cp w records pfx pw = (true, records, []) := by
  intro cp w records pfx pw nick ih r hex hn hlook hpw hhost
  obtain ⟨hih_ne, hih_strip⟩ := extract_ident_host_stripped pfx _ ih hex
  have hadd : add_host r ih = (false, r) := by
    simp [add_host, hih_strip, List.isEmpty_iff, hih_ne, hhost]
  have hupd : update_record records (pyLower nick) r = records :=
    update_record_self records (pyLower nick) r hlook
  simp [authenticate_owner, hex, List.isEmpty_iff, hn, hih_ne, hlook, hpw, hadd, hupd]

/-- Witness for C10: owner `Op` already trusts `~o@HOST.example`; re-auth from
`op!o@host.example` (case-folded, `~`-equivalent) succeeds with no change and
no write. -/
theorem reauth_trusted_host_is_noop_witness :
    extract_owner_identity ("op!o@host.example".data)
        = (some ("op".data), some ("o@host.example".data))
    ∧ authenticate_owner true true [⟨"Op".data, some ("pw".data), ["~o@HOST.example".data]⟩]
        ("op!o@host.example".data) ("pw".data)
      = (true, [⟨"Op".data, some ("pw".data), ["~o@HOST.example".data]⟩], []) :=
  ⟨by decide,
   reauth_trusted_host_is_noop true true
     [⟨"Op".data, some ("pw".data), ["~o@HOST.example".data]⟩]
     ("op!o@host.example".data) ("pw".data) ("op".data) ("o@host.example".data)
     ⟨"Op".data, some ("pw".data), ["~o@HOST.example".data]⟩
     (by decide) (by decide) (by decide) (by decide) (by decide)⟩

/-- C6 (amended): when auth succeeds for a not-yet-trusted `ident@host` and
the write succeeds, the config-file write happens before the success reply
(and before any subsequent command can run), and the caller is trusted
afterwards.  (The unamended claim fails on persistence failure, see the
counterexample.) -/
theorem first_use_bind_persists_before_reply :
    ∀ (records : OwnerRecords) (pfx nick ih : Str) (r : OwnerRecord) (args : List Str),
      extract_owner_identity pfx = (some nick, some ih) →
      nick ≠ [] →
      lookup_record records (pyLower nick) = some r →
      r.password = some (joinSpaces args) →
      args ≠ [] →
      has_host r ih = false →
      auth_command_trace true true records (some pfx) args true
        = (update_record records (pyLower nick) ⟨r.nick, r.password, r.hosts ++ [ih]⟩,
           [AuthTraceEv.persist (PersistEv.ownersWrite (serialize_owners
              (update_record records (pyLower nick) ⟨r.nick, r.password, r.hosts ++ [ih]⟩))),
            AuthTraceEv.reply (AuthReply.success (some ih))])
      ∧ has_owner_access
          (update_record records (pyLower nick) ⟨r.nick, r.password, r.hosts ++ [ih]⟩)
          (some pfx) = true := by
  intro records pfx nick ih r args hex hn hlook hpw hargs hnothost
  obtain ⟨hih_ne, hih_strip⟩ := extract_ident_host_stripped pfx _ ih hex
  have hpfx_ne : pfx ≠ [] := by
    intro hp
    subst hp
    rw [show extract_owner_identity [] = (none, none) from rfl] at hex
    simp at hex
  have hadd : add_host r ih = (true, ⟨r.nick, r.password, r.hosts ++ [ih]⟩) := by
    simp [add_host, hih_strip, List.isEmpty_iff, hih_ne, hnothost]
  have hauth : authenticate_owner true true records pfx (joinSpaces args)
      = (true, update_record records (pyLower nick) ⟨r.nick, r.password, r.hosts ++ [ih]⟩,
         [PersistEv.ownersWrite (serialize_owners (update_record records (pyLower nick)
            ⟨r.nick, r.password, r.hosts ++ [ih]⟩))]) := by
    simp [authenticate_owner, hex, List.isEmpty_iff, hn, hih_ne, hlook, hpw, hadd,
      persist_owner_records]
  constructor
  · simp [auth_command_trace, auth_command, List.isEmpty_iff, hargs, hpfx_ne, hauth, hex]
  · have hk : (pyLower r.nick == pyLower nick) = true := by
      have h2 : List.find? (fun rr => pyLower rr.nick == pyLower nick) records = some r := hlook
      simpa using List.find?_some h2
    have hlook' := lookup_update_record records (pyLower nick) r
        ⟨r.nick, r.password, r.hosts ++ [ih]⟩ hlook hk
    simp [has_owner_access, hpfx_ne, hex, List.isEmpty_iff, hn, hih_ne, hlook',
      has_host_append_self]

/-- Witness for C6: owner `op` with password `s3cr3t` and no hosts; `.auth`
from `op!o@h1` writes `hosts: [o@h1]` to the config and only then replies. -/
theorem first_use_bind_persists_before_reply_witness :
    extract_owner_identity ("op!o@h1".data) = (some ("op".data), some ("o@h1".data))
    ∧ auth_command_trace true true [⟨"op".data, some ("s3cr3t".data), []⟩]
        (some ("op!o@h1".data)) [("s3cr3t".data)] true
      = ([⟨"op".data, some ("s3cr3t".data), ["o@h1".data]⟩],
         [AuthTraceEv.persist (PersistEv.ownersWrite
            [⟨"op".data, some ("s3cr3t".data), ["o@h1".data]⟩]),
          AuthTraceEv.reply (AuthReply.success (some ("o@h1".data)))])
    ∧ has_owner_access [⟨"op".data, some ("s3cr3t".data), ["o@h1".data]⟩]
        (some ("op!o@h1".data)) = true := by
  have h := first_use_bind_persists_before_reply
    [⟨"op".data, some ("s3cr3t".data), []⟩] ("op!o@h1".data) ("op".data) ("o@h1".data)
    ⟨"op".data, some ("s3cr3t".data), []⟩ [("s3cr3t".data)]
    (by decide) (by decide) (by decide) (by decide) (by decide) (by decide)
  exact ⟨by decide, by simpa using h.1, by simpa using h.2⟩

/-- C6 counterexample: with a failing config write (`atomic_write_yaml`
raises, caught internally), first-use auth still succeeds, the in-memory
record keeps the new host, the success reply is sent, no write ever happens
— and the caller is trusted for subsequent commands: a "phantom" binding,
contradicting the claim that the record is persisted before the caller is
considered trusted and that a persistence failure leaves no phantom bind. -/
theorem auth_persist_failure_still_trusted :
    (auth_command_trace true false [⟨"op".data, some ("s3cr3t".data), []⟩]
        (some ("op!o@h1".data)) [("s3cr3t".data)] true)
      = ([⟨"op".data, some ("s3cr3t".data), ["o@h1".data]⟩],
         [.persist .ownersWriteFailed, .reply (.success (some ("o@h1".data)))])
    ∧ has_owner_access [⟨"op".data, some ("s3cr3t".data), ["o@h1".data]⟩]
        (some ("op!o@h1".data)) = true
    ∧ ([AuthTraceEv.persist .ownersWriteFailed,
        .reply (.success (some ("o@h1".data)))].all
        (fun e =>
          match e with
          | .persist (.ownersWrite _) => false
          | _ => true)) = true := by
  decide

/-- C7: a failing private-message `auth` attempt — unknown nick, record
without password, or wrong password all make `_authenticate_owner` return
`False` — is always answered with the same constant reply
`"Authentication failed."`; any two failing attempts are indistinguishable. -/
theorem auth_failure_reply_uniform :
    ∀ (cp1 w1 cp2 w2 : Bool) (recs1 recs2 : OwnerRecords) (pfx1 pfx2 : Str)
      (args1 args2 : List Str),
      pfx1 ≠ [] → args1 ≠ [] → pfx2 ≠ [] → args2 ≠ [] →
      (authenticate_owner cp1 w1 recs1 pfx1 (joinSpaces args1)).1 = false →
      (authenticate_owner cp2 w2 recs2 pfx2 (joinSpaces args2)).1 = false →
      (auth_command cp1 w1 recs1 (some pfx1) args1 true).1 = AuthReply.failed
      ∧ (auth_command cp2 w2 recs2 (some pfx2) args2 true).1
          = (auth_command cp1 w1 recs1 (some pfx1) args1 true).1 := by
  have key : ∀ (cp w : Bool) (recs : OwnerRecords) (pfx : Str) (args : List Str),
      pfx ≠ [] → args ≠ [] →
      (authenticate_owner cp w recs pfx (joinSpaces args)).1 = false →
      (auth_command cp w recs (some pfx) args true).1 = AuthReply.failed := by
    intro cp w recs pfx args hp ha hf
    cases hA : authenticate_owner cp w recs pfx (joinSpaces args) with
    | mk b rest =>
      rw [hA] at hf
      simp only at hf
      subst hf
      simp [auth_command, List.isEmpty_iff, ha, hp, hA]
  intro cp1 w1 cp2 w2 recs1 recs2 pfx1 pfx2 args1 args2 hp1 ha1 hp2 ha2 hf1 hf2
  have k1 := key cp1 w1 recs1 pfx1 args1 hp1 ha1 hf1
  have k2 := key cp2 w2 recs2 pfx2 args2 hp2 ha2 hf2
  exact ⟨k1, by rw [k1, k2]⟩

/-- Witness for C7: unknown nick (`stranger`) and wrong password (`op` with
password `pw`) both yield the constant failure reply. -/
theorem auth_failure_reply_uniform_witness :
    (("stranger!u@h".data : Str) ≠ [] ∧ ([("x".data)] : List Str) ≠ []
      ∧ ("op!o@h".data : Str) ≠ [] ∧ ([("wrong".data)] : List Str) ≠ []
      ∧ (authenticate_owner true true [⟨"op".data, some ("pw".data), []⟩]
          ("stranger!u@h".data) (joinSpaces [("x".data)])).1 = false
      ∧ (authenticate_owner true true [⟨"op".data, some ("pw".data), []⟩]
          ("op!o@h".data) (joinSpaces [("wrong".data)])).1 = false)
    ∧ (auth_command true true [⟨"op".data, some ("pw".data), []⟩]
        (some ("stranger!u@h".data)) [("x".data)] true).1 = AuthReply.failed
    ∧ (auth_command true true [⟨"op".data, some ("pw".data), []⟩]
        (some ("op!o@h".data)) [("wrong".data)] true).1
      = (auth_command true true [⟨"op".data, some ("pw".data), []⟩]
          (some ("stranger!u@h".data)) [("x".data)] true).1 :=
  ⟨by decide,
   auth_failure_reply_uniform true true true true
     [⟨"op".data, some ("pw".data), []⟩] [⟨"op".data, some ("pw".data), []⟩]
     ("stranger!u@h".data) ("op!o@h".data) [("x".data)] [("wrong".data)]
     (by decide) (by decide) (by decide) (by decide) (by decide) (by decide)⟩

/-- C9: a `PRIVMSG` whose parsed message lacks a source or lacks a trailing
payload (no `" :"` on the wire) is dropped by `_handle_privmsg` before the
ignore check, builtin handling, registered-command dispatch and handler
broadcast: no calls are made and the state is unchanged.  The second
conjunct shows a wire line without `" :"` indeed parses with `trailing = none`. -/
theorem privmsg_no_source_or_trailing_dropped :
    (∀ (st : ClientState) (msg : IRCMessage),
        msg.source = none ∨ msg.trailing = none → handle_privmsg st msg = (st, []))
    ∧ parse_irc_message (":n!u@h PRIVMSG #c".data)
        = some ⟨some ("n!u@h".data), "PRIVMSG".data, ["#c".data], none⟩ := by
  constructor
  · intro st msg h
    rcases h with h | h
    · simp [handle_privmsg, h]
    · cases hs : msg.source with
      | none => simp [handle_privmsg, hs]
      | some u => simp [handle_privmsg, hs, h]
  · decide

/-- Witness for C9: the parsed `:n!u@h PRIVMSG #c` (no trailing) is dropped. -/
theorem privmsg_no_source_or_trailing_dropped_witness :
    handle_privmsg ⟨"ebba".data, [], []⟩
        ⟨some ("n!u@h".data), "PRIVMSG".data, ["#c".data], none⟩
      = (⟨"ebba".data, [], []⟩, []) :=
  privmsg_no_source_or_trailing_dropped.1 ⟨"ebba".data, [], []⟩
    ⟨some ("n!u@h".data), "PRIVMSG".data, ["#c".data], none⟩ (Or.inr rfl)

/-- C2 counterexample: an inbound `NICK` that carries a source but no new
nickname (no trailing, no parameters) is dropped by `_handle_nick` without
updating state and without broadcasting, even though a loaded module defines
`on_nick` — so the claim "every NICK with a source prefix is broadcast" is
false as stated. -/
theorem nick_without_new_nick_not_broadcast :
    (IRCMessage.mk (some ("alice!a@h".data)) ("NICK".data) [] none).source ≠ none
    ∧ handle_nick ⟨"ebba".data, [], []⟩ ⟨some ("alice!a@h".data), "NICK".data, [], none⟩
        = (⟨"ebba".data, [], []⟩, [])
    ∧ spawned_tasks [⟨"seen".data, true, true, true⟩]
        (handle_nick ⟨"ebba".data, [], []⟩ ⟨some ("alice!a@h".data), "NICK".data, [], none⟩).2
      = [] := by
  decide

/-- C2 (amended): every inbound `NICK` with a source and a non-empty new
nickname, `KICK` with a source and at least two parameters, and `QUIT` with
a source is routed: runtime state is updated (self-NICK renames, self-KICK
forgets the channel) and the event is broadcast, spawning one task for every
loaded module that defines the corresponding handler. -/
theorem nick_kick_quit_update_then_broadcast :
    ∀ (st : ClientState) (msg : IRCMessage) (mods : List HandlerModule) (pfx : Str),
      msg.source = some pfx →
      ((nick_new_nick msg ≠ [] →
          handle_nick st msg
            = (if pyLower (nickOf pfx) == pyLower st.nickname
                then { st with nickname := nick_new_nick msg } else st,
               [RouterCall.dispatchNick pfx (nick_new_nick msg)])
          ∧ ∀ m ∈ mods, m.hasOnNick = true →
              SpawnedTask.onNick m.name pfx (nick_new_nick msg)
                ∈ spawned_tasks mods (handle_nick st msg).2)
      ∧ (∀ channel target rest2, msg.params = channel :: target :: rest2 →
          handle_kick st msg
            = (if pyLower target == pyLower st.nickname
                then { st with channels := forget_channel_mem st.channels channel } else st,
               [RouterCall.dispatchKick channel target pfx (msg.trailing.getD [])])
          ∧ ∀ m ∈ mods, m.hasOnKick = true →
              SpawnedTask.onKick m.name channel target pfx (msg.trailing.getD [])
                ∈ spawned_tasks mods (handle_kick st msg).2)
      ∧ (handle_quit st msg = (st, [RouterCall.dispatchQuit pfx (msg.trailing.getD [])])
          ∧ ∀ m ∈ mods, m.hasOnQuit = true →
              SpawnedTask.onQuit m.name pfx (msg.trailing.getD [])
                ∈ spawned_tasks mods (handle_quit st msg).2)) := by
  intro st msg mods pfx hsrc
  refine ⟨?_, ?_, ?_⟩
  · intro hnn
    have h1 : handle_nick st msg
        = (if pyLower (nickOf pfx) == pyLower st.nickname
            then { st with nickname := nick_new_nick msg } else st,
           [RouterCall.dispatchNick pfx (nick_new_nick msg)]) := by
      simp only [handle_nick, hsrc]
      simp [List.isEmpty_iff, hnn]
    refine ⟨h1, ?_⟩
    intro m hm hh
    rw [h1]
    simp only [spawned_tasks, run_dispatch, dispatch_nick, List.flatMap_cons,
      List.flatMap_nil, List.append_nil, List.mem_map]
    exact ⟨m, List.mem_filter.mpr ⟨hm, hh⟩, rfl⟩
  · intro channel target rest2 hparams
    have h1 : handle_kick st msg
        = (if pyLower target == pyLower st.nickname
            then { st with channels := forget_channel_mem st.channels channel } else st,
           [RouterCall.dispatchKick channel target pfx (msg.trailing.getD [])]) := by
      simp only [handle_kick, hsrc, hparams]
    refine ⟨h1, ?_⟩
    intro m hm hh
    rw [h1]
    simp only [spawned_tasks, run_dispatch, dispatch_kick, List.flatMap_cons,
      List.flatMap_nil, List.append_nil, List.mem_map]
    exact ⟨m, List.mem_filter.mpr ⟨hm, hh⟩, rfl⟩
  · have h1 : handle_quit st msg = (st, [RouterCall.dispatchQuit pfx (msg.trailing.getD [])]) := by
      simp only [handle_quit, hsrc]
    refine ⟨h1, ?_⟩
    intro m hm hh
    rw [h1]
    simp only [spawned_tasks, run_dispatch, dispatch_quit, List.flatMap_cons,
      List.flatMap_nil, List.append_nil, List.mem_map]
    exact ⟨m, List.mem_filter.mpr ⟨hm, hh⟩, rfl⟩

/-- Witness for C2: `:alice!a@h NICK :bob` with one loaded module defining
`on_nick` updates nothing (non-self) and spawns the module's task. -/
theorem nick_kick_quit_update_then_broadcast_witness :
    (IRCMessage.mk (some ("alice!a@h".data)) ("NICK".data) [] (some ("bob".data))).source
        = some ("alice!a@h".data)
    ∧ nick_new_nick ⟨some ("alice!a@h".data), "NICK".data, [], some ("bob".data)⟩ ≠ []
    ∧ SpawnedTask.onNick ("seen".data) ("alice!a@h".data) ("bob".data)
        ∈ spawned_tasks [⟨"seen".data, true, false, false⟩]
            (handle_nick ⟨"ebba".data, [], []⟩
              ⟨some ("alice!a@h".data), "NICK".data, [], some ("bob".data)⟩).2 :=
  ⟨rfl, by decide,
   ((nick_kick_quit_update_then_broadcast ⟨"ebba".data, [], []⟩
      ⟨some ("alice!a@h".data), "NICK".data, [], some ("bob".data)⟩
      [⟨"seen".data, true, false, false⟩] ("alice!a@h".data) rfl).1
      (by decide)).2 ⟨"seen".data, true, false, false⟩ (by decide) rfl⟩

/-- C1 (code-bug evidence): for `AsyncRateLimiter(1, 1.0)` there is a
realizable trace — clock readings 0, 0/1, 1/1, each step satisfying the
monotonic-clock and sleep side conditions — in which three `acquire()`
calls complete at times 0, 1 and 1: the closed window `[0, 1]` of length
`W = 1` contains 3 > N = 1 completions (two at the very same instant).
The second pruning pass uses a strict `>` and then appends without
re-checking `len < N` (the spec's "restart at step 1" is not performed). -/
theorem rate_limiter_exceeds_window_bound :
    rlStepValid 1 1 [] 0 ⟨0, 0⟩
    ∧ rlStepValid 1 1 [0] 0 ⟨0, 1⟩
    ∧ rlStepValid 1 1 [0, 1] 1 ⟨1, 1⟩
    ∧ (rlAcquire 1 1 [] ⟨0, 0⟩).1 = [0]
    ∧ (rlAcquire 1 1 [0] ⟨0, 1⟩).1 = [0, 1]
    ∧ (rlRun 1 1 [⟨0, 0⟩, ⟨0, 1⟩, ⟨1, 1⟩]).2 = [0, 1, 1]
    ∧ completionsInWindow 1 0 (rlRun 1 1 [⟨0, 0⟩, ⟨0, 1⟩, ⟨1, 1⟩]).2 = 3
    ∧ 1 < completionsInWindow 1 0 (rlRun 1 1 [⟨0, 0⟩, ⟨0, 1⟩, ⟨1, 1⟩]).2 := by
  refine ⟨?_, ?_, ?_, ?_, ?_, ?_, ?_, ?_⟩ <;>
    norm_num [rlStepValid, rlRun, rlAcquire, rlPrune, rlWaitTime, completionsInWindow,
      List.countP, List.countP.go]

/-- C3 (code-bug evidence): the freshly constructed send queue is bounded at
100 (the 101st `send_raw` is dropped), but after `_cleanup_connection`
replaces it with `asyncio.Queue()` — no `maxsize` — 101 consecutive
`send_raw` calls all enqueue: the queue holds 101 > 100 lines and nothing
is dropped, violating the claimed invariant after a disconnect. -/
theorem send_queue_unbounded_after_cleanup :
    (send_many init_send_queue (List.replicate 101 0)).1.items.length = 100
    ∧ (send_many init_send_queue (List.replicate 101 0)).2 = 1
    ∧ (send_many cleanup_send_queue (List.replicate 101 0)).1.items.length = 101
    ∧ (send_many cleanup_send_queue (List.replicate 101 0)).2 = 0
    ∧ 100 < (send_many cleanup_send_queue (List.replicate 101 0)).1.items.length := by
  set_option maxRecDepth 8000 in decide

/-- C4 (code-bug evidence): `parse_irc_message` on the line `":foo"` — a
`:`-prefixed token with no space — raises `ValueError` (modelled `none`):
`"foo".split(" ", 1)` yields one element and the two-target unpacking
fails.  `_reader_loop` has no try/except around the parse, so the exception
escapes (`reader_loop_step = raisedValueError`) and tears the connection
down; a well-formed line parses normally. -/
theorem parse_colon_token_line_raises :
    parse_irc_message (":foo".data) = none
    ∧ reader_loop_step (":foo\r\n".data) = ReaderOutcome.raisedValueError
    ∧ reader_loop_step ("PING :abc\r\n".data)
        = ReaderOutcome.routed ⟨none, "PING".data, [], some ("abc".data)⟩ := by
  decide

/-- C5 counterexample: with `reconnect_delay_secs = 1`,
`max_reconnect_delay_secs = 8`, two dial failures (waits 1, 2) followed by a
*successful* connection whose session later dies with an exception
(`sessionError`), `_connect_once` raises, the reset at line 106 never runs,
and the `except` branch sleeps the stale doubled backoff: the wait after the
successful connection is 4, not `max(reconnect_delay_secs, 1) = 1` — refuting
"any successful connection resets the next failure's wait". -/
theorem successful_connection_no_backoff_reset :
    (backoff_run 1 8 [.dialFail, .dialFail, .sessionError]).2 = [1, 2, 4]
    ∧ (backoff_run 1 8 [.dialFail, .dialFail, .sessionError]).2.getLast?
        ≠ some (max 1 1) := by
  decide

/-- C5 (amended): the waits after successive raising attempts start at
`max(reconnect_delay_secs, 1)` and double, capped at
`max_reconnect_delay_secs` — concretely 1, 2, 4, 8, 8 for delay 1 and cap 8.
The backoff is reset to `max(reconnect_delay_secs, 1)` exactly when
`_connect_once` returns normally (clean EOF or stop); a successful
connection whose session ends with an exception takes the failure path: it
sleeps the current (stale, previously doubled) backoff, doubles it again,
and a subsequent failure keeps doubling from there (e.g. 1, 2, 4, 8 for the
trace dial-fail, dial-fail, session-error, dial-fail). -/
theorem reconnect_backoff_waits_reset_on_graceful_return :
    (backoff_run 1 8 [.dialFail, .dialFail, .dialFail, .dialFail, .dialFail]).2
        = [1, 2, 4, 8, 8]
    ∧ (backoff_run 1 8 [.dialFail, .dialFail, .sessionError, .dialFail]).2 = [1, 2, 4, 8]
    ∧ (∀ d M : ℤ, (backoff_run d M []).1 = max d 1)
    ∧ (∀ (d M : ℤ) (pre : List AttemptOutcome),
        (backoff_run d M (pre ++ [.gracefulEnd])).1 = max d 1
        ∧ (backoff_run d M (pre ++ [.gracefulEnd])).2 = (backoff_run d M pre).2)
    ∧ (∀ (d M : ℤ) (pre : List AttemptOutcome),
        (backoff_run d M (pre ++ [.dialFail])).2
            = (backoff_run d M pre).2 ++ [(backoff_run d M pre).1]
        ∧ (backoff_run d M (pre ++ [.dialFail])).1 = min ((backoff_run d M pre).1 * 2) M)
    ∧ (∀ (d M : ℤ) (pre : List AttemptOutcome),
        (backoff_run d M (pre ++ [.sessionError])).2
            = (backoff_run d M pre).2 ++ [(backoff_run d M pre).1]
        ∧ (backoff_run d M (pre ++ [.sessionError])).1
            = min ((backoff_run d M pre).1 * 2) M) := by
  refine ⟨by decide, by decide, ?_, ?_, ?_, ?_⟩
  · intro d M
    simp [backoff_run, backoff_reset]
  · intro d M pre
    constructor <;>
      simp [backoff_run, List.foldl_append, backoff_step, backoff_reset, backoff_next]
  · intro d M pre
    constructor <;>
      simp [backoff_run, List.foldl_append, backoff_step, backoff_reset, backoff_next]
  · intro d M pre
    constructor <;>
      simp [backoff_run, List.foldl_append, backoff_step, backoff_reset, backoff_next]

/-- C8 counterexample: with `channels: [" #a "]` on disk and in-memory
channels `["#a"]`, `_persist_channels` compares the *stripped* disk strings
with the normalised list, finds them equal, and skips the write — so the
untrimmed `" #a "` stays on disk and reloading does *not* yield the
normalised list, refuting the claimed persist-then-reload round trip (and
the literal reading of "equals what is already on disk": the raw disk
content differs from the normalised list, yet no write is performed). -/
theorem persist_channels_skip_leaves_untrimmed_disk :
    persist_channels [YItem.str (" #a ".data)] [YItem.str ("#a".data)]
      = ⟨false, [YItem.str (" #a ".data)], ["#a".data]⟩
    ∧ reload_channels [YItem.str (" #a ".data)]
        ≠ (normalize_channels [YItem.str ("#a".data)]).map YItem.str
    ∧ [YItem.str (" #a ".data)] ≠ (normalize_channels [YItem.str ("#a".data)]).map YItem.str := by
  decide

theorem normalize_aux_map_pyStrip (l : List YItem) :
    ∀ seen, (normalize_aux seen l).map pyStrip = normalize_aux seen l := by
  induction l with
  | nil => intro seen; rfl
  | cons x rest ih =>
    intro seen
    cases x with
    | other => simpa [normalize_aux] using ih seen
    | str c =>
      by_cases h1 : (pyStrip c).isEmpty = true
      · simpa [normalize_aux, h1] using ih seen
      · by_cases h2 : pyLower (pyStrip c) ∈ seen
        · simpa [normalize_aux, h1, h2] using ih seen
        · simp [normalize_aux, h1, h2, pyStrip_idem, ih (pyLower (pyStrip c) :: seen)]

theorem existing_of_map_str (xs : List Str) :
    existing_of (xs.map YItem.str) = xs.map pyStrip := by
  induction xs with
  | nil => rfl
  | cons x rest ih =>
    simp only [List.map_cons, existing_of, List.filterMap_cons] at *
    simpa using ih

theorem normalize_aux_self (l : List YItem) :
    ∀ seen, normalize_aux seen ((normalize_aux seen l).map YItem.str) = normalize_aux seen l := by
  induction l with
  | nil => intro seen; rfl
  | cons x rest ih =>
    intro seen
    cases x with
    | other => simpa [normalize_aux] using ih seen
    | str c =>
      by_cases h1 : (pyStrip c).isEmpty = true
      · simpa [normalize_aux, h1] using ih seen
      · by_cases h2 : pyLower (pyStrip c) ∈ seen
        · simpa [normalize_aux, h1, h2] using ih seen
        · simp [normalize_aux, h1, h2, pyStrip_idem, ih (pyLower (pyStrip c) :: seen)]

/-- C8 (amended): `_persist_channels` normalises the in-memory list (trim,
case-insensitive dedupe keeping first occurrence, case and order
preserved); if the stripped string items already on disk equal it, no write
is performed (disk left as-is); otherwise the normalised list is written
and reloading yields exactly it; and persisting again right after a write
performs no write (idempotence). -/
theorem persist_channels_normalised_roundtrip :
    ∀ (disk selfCh : List YItem),
      (existing_of disk = normalize_channels selfCh →
        persist_channels disk selfCh = ⟨false, disk, normalize_channels selfCh⟩)
      ∧ (existing_of disk ≠ normalize_channels selfCh →
        persist_channels disk selfCh
          = ⟨true, (normalize_channels selfCh).map YItem.str, normalize_channels selfCh⟩
        ∧ existing_of (reload_channels ((normalize_channels selfCh).map YItem.str))
            = normalize_channels selfCh)
      ∧ persist_channels ((normalize_channels selfCh).map YItem.str)
            ((normalize_channels selfCh).map YItem.str)
          = ⟨false, (normalize_channels selfCh).map YItem.str, normalize_channels selfCh⟩ := by
  intro disk selfCh
  have e1 : existing_of ((normalize_channels selfCh).map YItem.str)
      = normalize_channels selfCh := by
    rw [existing_of_map_str]
    exact normalize_aux_map_pyStrip selfCh []
  have e2 : normalize_channels ((normalize_channels selfCh).map YItem.str)
      = normalize_channels selfCh := normalize_aux_self selfCh []
  refine ⟨?_, ?_, ?_⟩
  · intro h
    simp [persist_channels, h]
  · intro h
    exact ⟨by simp [persist_channels, h], e1⟩
  · simp [persist_channels, reload_channels, e1, e2]

/-- Witness for C8: in-memory `["#A", "#a ", non-string]` normalises to
`["#A"]` (trimmed, case-insensitively deduped, case preserved); the empty
disk differs, so the normalised list is written. -/
theorem persist_channels_normalised_roundtrip_witness :
    existing_of []
        ≠ normalize_channels [YItem.str ("#A".data), YItem.str ("#a ".data), YItem.other]
    ∧ persist_channels [] [YItem.str ("#A".data), YItem.str ("#a ".data), YItem.other]
        = ⟨true,
           (normalize_channels
              [YItem.str ("#A".data), YItem.str ("#a ".data), YItem.other]).map YItem.str,
           normalize_channels [YItem.str ("#A".data), YItem.str ("#a ".data), YItem.other]⟩
    ∧ normalize_channels [YItem.str ("#A".data), YItem.str ("#a ".data), YItem.other]
        = [("#A".data)] :=
  ⟨by decide,
   ((persist_channels_normalised_roundtrip []
      [YItem.str ("#A".data), YItem.str ("#a ".data), YItem.other]).2.1 (by decide)).1,
   by decide⟩

end Ebba
